import Mathlib

set_option maxRecDepth 100000

/-!
Verification of the diagram-block validator/repairer of the
`ai-diagram-generator` repository (`src/cli.js`).

Documents and diagram contents are modelled as `List Char`; the JavaScript
string operations used by the source (`split`, `trim`, `toLowerCase`,
`includes`, counting regex matches, and the global-regex fence scan of
`extractMermaidBlocks`) are embedded as executable functions below.
-/

/-- JavaScript whitespace (the characters relevant to `String.trim` here). -/
def isWS (c : Char) : Bool := c = ' ' || c = '\t' || c = '\n' || c = '\r'

/-- JS `String.trim`: drop whitespace from both ends. -/
def trim (l : List Char) : List Char :=
  ((l.dropWhile isWS).reverse.dropWhile isWS).reverse

/-- JS `String.split('\n')`: always returns at least one (possibly empty) line. -/
def splitOnNl : List Char → List (List Char)
  | [] => [[]]
  | c :: rest =>
    if c = '\n' then [] :: splitOnNl rest
    else
      match splitOnNl rest with
      | [] => [[c]]
      | l :: ls => (c :: l) :: ls

/-- Boolean "is prefix of" test on character lists. -/
def isPre : List Char → List Char → Bool
  | [], _ => true
  | _ :: _, [] => false
  | a :: as, b :: bs => a = b && isPre as bs

/-- First index at which `pat` occurs in `l` (JS `String.indexOf` / regex scan). -/
def findSub (pat : List Char) : List Char → Option Nat
  | [] => if isPre pat [] then some 0 else none
  | x :: t => if isPre pat (x :: t) then some 0 else (findSub pat t).map (· + 1)

/-- First index `≥ start` at which `pat` occurs in `s` (global-regex `lastIndex` scan). -/
def findSubFrom (pat s : List Char) (start : Nat) : Option Nat :=
  (findSub pat (s.drop start)).map (· + start)

/-- JS `String.includes`. -/
def containsSub (pat l : List Char) : Bool := (findSub pat l).isSome

/-- JS `String.toLowerCase` (ASCII, which is all the source compares). -/
def toLowerL (l : List Char) : List Char := l.map Char.toLower

/-- The opening fence marker of the scan regex `/```mermaid\n([\s\S]*?)\n```/g`. -/
def mermaidOpen : List Char := "```mermaid\n".data

/-- The closing fence marker of the scan regex. -/
def closeFence : List Char := "\n```".data

/-- JS source `detectMermaidType` (`src/cli.js:414`): inspect the first line of
the content, trimmed and lower-cased, and match the fixed keyword list.  The
mixed-case literals `classDiagram`, `stateDiagram`, `erDiagram` are kept
exactly as the source writes them. -/
def detectMermaidType (content : List Char) : String :=
  let firstLine := toLowerL (trim ((splitOnNl content).headD []))
  if containsSub "sequencediagram".data firstLine then "sequence"
  else if containsSub "flowchart".data firstLine || containsSub "graph".data firstLine then
    "flowchart"
  else if containsSub "classDiagram".data firstLine then "class"
  else if containsSub "stateDiagram".data firstLine then "state"
  else if containsSub "erDiagram".data firstLine then "er"
  else if containsSub "gantt".data firstLine then "gantt"
  else if containsSub "pie".data firstLine then "pie"
  else if containsSub "journey".data firstLine then "journey"
  else "unknown"

/-- One extracted diagram block (`src/cli.js:401`): `{index, type, content, fullMatch}`. -/
structure MermaidBlock where
  index : Nat
  type : String
  content : List Char
  fullMatch : List Char
deriving DecidableEq

/-- The `regex.exec` loop of `extractMermaidBlocks` (`src/cli.js:391`), with
explicit fuel.  Each round: find the next opening marker at `o ≥ pos`, then the
lazily-first closing marker at `c ≥ o + 11`; the captured group is the text in
between, the recorded content is its trim, and the scan resumes at `c + 4`.
If the opener has no closer the scan ends (as the regex finds no further match). -/
def extractLoopF : Nat → List Char → Nat → Nat → List MermaidBlock
  | 0, _, _, _ => []
  | Nat.succ fuel, s, pos, idx =>
    match findSubFrom mermaidOpen s pos with
    | none => []
    | some o =>
      match findSubFrom closeFence s (o + mermaidOpen.length) with
      | none => []
      | some c =>
        let between := (s.drop (o + mermaidOpen.length)).take (c - (o + mermaidOpen.length))
        { index := idx
          type := detectMermaidType (trim between)
          content := trim between
          fullMatch := mermaidOpen ++ between ++ closeFence } ::
          extractLoopF fuel s (c + closeFence.length) (idx + 1)

/-- JS source `extractMermaidBlocks` (`src/cli.js:391`). -/
def extractMermaidBlocks (content : List Char) : List MermaidBlock :=
  extractLoopF (content.length + 1) content 0 1

/-- JS `\w` character class. -/
def isWordChar (c : Char) : Bool := c.isAlphanum || c = '_'

/-- Tail of the node-text regex: `.*"\):::` — somewhere ahead, `"):::`. -/
def seekCloseTail (l : List Char) : Bool := containsSub "\"):::".data l

/-- Middle of the node-text regex: `\).*"\):::` with full backtracking. -/
def seekParenClose : List Char → Bool
  | [] => false
  | c :: rest => (c = ')' && seekCloseTail rest) || seekParenClose rest

/-- Middle of the node-text regex: `\(.*\).*"\):::` with full backtracking. -/
def seekParenOpen : List Char → Bool
  | [] => false
  | c :: rest => (c = '(' && seekParenClose rest) || seekParenOpen rest

/-- JS regex test `/\w+\(".*\(.*\).*"\):::/` (`src/cli.js:470`): existence of a
word character followed by `("`, then later `(`, later `)`, later `"):::`. -/
def nodeWithParensInText : List Char → Bool
  | [] => false
  | c1 :: rest =>
    (match rest with
     | c2 :: c3 :: rest2 => isWordChar c1 && c2 = '(' && c3 = '"' && seekParenOpen rest2
     | _ => false)
    || nodeWithParensInText rest

/-- Defect message of `src/cli.js:458` (kind: unmatched square brackets). -/
def msgUnmatchedBrackets (lineNo : Nat) : String :=
  "Line " ++ toString lineNo ++ ": Unmatched square brackets"

/-- Defect message of `src/cli.js:461` (kind: unmatched parentheses). -/
def msgUnmatchedParens (lineNo : Nat) : String :=
  "Line " ++ toString lineNo ++ ": Unmatched parentheses"

/-- Defect message of `src/cli.js:466` (kind: mixed shape delimiters). -/
def msgMixedShape (lineNo : Nat) : String :=
  "Line " ++ toString lineNo ++ ": Invalid node syntax - cannot combine parentheses and brackets like ([...]). Use either (...) or [...] but not both."

/-- Defect message of `src/cli.js:472` (kind: parenthesized node text). -/
def msgNodeParens (lineNo : Nat) : String :=
  "Line " ++ toString lineNo ++ ": Invalid node syntax - parentheses in node text conflict with rounded rectangle syntax. Use square brackets instead: NodeID[\"text with (parentheses)\"]"

/-- Defect message of `src/cli.js:477` (kind: malformed bracket/brace). -/
def msgBraceBracket (lineNo : Nat) : String :=
  "Line " ++ toString lineNo ++ ": Invalid node syntax - malformed bracket/brace combination"

/-- Defect message of `src/cli.js:482` (kind: invalid arrow syntax). -/
def msgInvalidArrow (lineNo : Nat) : String :=
  "Line " ++ toString lineNo ++ ": Invalid arrow syntax"

/-- The per-line checks of the `validateMermaidSyntax` loop body
(`src/cli.js:447`–`484`), in source order, on the trimmed line; blank lines and
`%%` comment lines are skipped. -/
def lineErrors (rawLine : List Char) (lineNo : Nat) : List String :=
  let line := trim rawLine
  if line.isEmpty || isPre "%%".data line then []
  else
    (if line.count '[' ≠ line.count ']' then [msgUnmatchedBrackets lineNo] else [])
    ++ (if line.count '(' ≠ line.count ')' then [msgUnmatchedParens lineNo] else [])
    ++ (if containsSub "([".data line && containsSub "])".data line then
      [msgMixedShape lineNo] else [])
    ++ (if nodeWithParensInText line then [msgNodeParens lineNo] else [])
    ++ (if containsSub "]\x7b".data line || containsSub "\x7d[".data line then
      [msgBraceBracket lineNo] else [])
    ++ (if containsSub "-->-".data line || containsSub "--->>".data line then
      [msgInvalidArrow lineNo] else [])

/-- The `for (let i = 0; ...)` loop of `validateMermaidSyntax`, 1-based line numbers. -/
def lineErrorsAll : List (List Char) → Nat → List String
  | [], _ => []
  | l :: rest, i => lineErrors l i ++ lineErrorsAll rest (i + 1)

/-- `validTypes` of `src/cli.js:439`, exactly as the source writes them. -/
def validTypes : List String :=
  ["flowchart", "graph", "sequencediagram", "classDiagram", "stateDiagram",
   "erDiagram", "gantt", "pie", "journey"]

/-- Result of `validateMermaidSyntax`: `{isValid, errors}`. -/
structure ValidationResult where
  isValid : Bool
  errors : List String
deriving DecidableEq

/-- The first-line diagram-type check of `validateMermaidSyntax`
(`src/cli.js:436`–`444`): trim and lower-case the first line and test it
against the (lower-cased) `validTypes`. -/
def typeDeclErrors (lines : List (List Char)) : List String :=
  if validTypes.any (fun t => containsSub (toLowerL t.data) (toLowerL (trim (lines.headD []))))
  then []
  else ["Missing or invalid diagram type declaration"]

/-- The accumulated `errors` array of `validateMermaidSyntax`: the type check
followed by the per-line checks. -/
def validationErrors (mermaidContent : List Char) : List String :=
  typeDeclErrors (splitOnNl mermaidContent) ++ lineErrorsAll (splitOnNl mermaidContent) 1

/-- JS source `validateMermaidSyntax` (`src/cli.js:430`): first-line diagram-type
check, then the per-line checks; valid iff no errors. -/
def validateMermaidSyntax (mermaidContent : List Char) : ValidationResult :=
  ⟨(validationErrors mermaidContent).isEmpty, validationErrors mermaidContent⟩

/-- `validateMermaidSyntax` with the per-line body abstracted as a possibly
throwing check, mirroring the `try`/`catch` of `src/cli.js:431`/`491`: if any
per-line check throws, the whole result is replaced by the single error
`'Validation error: ' + error.message`. -/
def lineErrorsAllE (check : List Char → Nat → Except String (List String)) :
    List (List Char) → Nat → Except String (List String)
  | [], _ => Except.ok []
  | l :: rest, i =>
    match check l i with
    | Except.error e => Except.error e
    | Except.ok e1 =>
      match lineErrorsAllE check rest (i + 1) with
      | Except.error e => Except.error e
      | Except.ok e2 => Except.ok (e1 ++ e2)

/-- The `try`/`catch` wrapper of `validateMermaidSyntax`, generalized over the
per-line body so the catch path is reachable. -/
def validateMermaidSyntaxT (check : List Char → Nat → Except String (List String))
    (mermaidContent : List Char) : ValidationResult :=
  match lineErrorsAllE check (splitOnNl mermaidContent) 1 with
  | Except.ok les =>
    ⟨(typeDeclErrors (splitOnNl mermaidContent) ++ les).isEmpty,
     typeDeclErrors (splitOnNl mermaidContent) ++ les⟩
  | Except.error msg => ⟨false, ["Validation error: " ++ msg]⟩

/-- The per-diagram line of the validation summary string (`src/cli.js:549`). -/
def summaryLine (r : MermaidBlock × ValidationResult) : String :=
  "- Diagram " ++ toString r.1.index ++ " (" ++ r.1.type ++ "): "
    ++ (if r.2.isValid then "✅ Valid" else "❌ Issues: " ++ String.intercalate ", " r.2.errors)

/-- `validationSummary` of `src/cli.js:549`: one line per diagram, joined by newlines. -/
def validationSummary (results : List (MermaidBlock × ValidationResult)) : String :=
  String.intercalate "\n" (results.map summaryLine)

/-- The fixed text of `validatorPrompt` before the validation analysis (`src/cli.js:554`). -/
def promptHead : String :=
  "You are a specialized Mermaid Diagram Validator Agent. Your role is to produce clean, documentation-ready markdown.\n\n**VALIDATION ANALYSIS:**\n"

/-- The fixed text of `validatorPrompt` between the analysis and the first draft
(`src/cli.js:559`–`576`). -/
def promptMid : String :=
  "\n\n**YOUR TASKS:**\n1. **Validate Syntax**: Fix any Mermaid syntax errors that would prevent rendering\n2. **Clean Output**: Remove any processing commentary, validation notes, or technical details\n3. **Documentation Focus**: Ensure the output is readable by engineers as architectural documentation\n4. **Preserve Content**: Keep all explanatory text, headings, and structure that help understanding\n\n**COMMON ISSUES TO FIX:**\n- **Invalid node syntax combinations**: NodeID([\"Text\"]) should be NodeID[\"Text\"] or NodeID(\"Text\") - never combine parentheses and brackets\n- **Parentheses in node text**: NodeID(\"text with (parentheses)\") causes parser conflicts - use NodeID[\"text with (parentheses)\"] instead\n- **Node syntax with spaces/special chars**: A1(POST /api/payments) should be A1[\"POST /api/payments\"]\n- **Malformed node definitions**: NodeID([\"Text should be NodeID[\"Text\"]\n- **Invalid arrows**: Remove semicolons after arrows, fix malformed arrows like -->- or --->>\n- **Inline class syntax**: Replace ::: with class statements\n- **Unquoted labels**: Special characters need proper quoting\n- **Missing or broken styling definitions**\n- **Bracket/brace combinations**: Fix invalid patterns like ]\x7b, \x7d[, or other malformed combinations\n\n**INPUT - FIRST DRAFT TO VALIDATE:**\n"

/-- The fixed text of `validatorPrompt` after the first draft (`src/cli.js:579`–`587`). -/
def promptTail : String :=
  "\n\n**CRITICAL OUTPUT REQUIREMENTS:**\n- Return ONLY the clean, final markdown documentation\n- NO validation commentary, processing notes, or \"corrected output\" headers\n- NO technical details about what was fixed\n- The output should read like professional architectural documentation\n- Include explanatory text, headings, and context that help engineers understand the system\n- Ensure all Mermaid diagrams use proper syntax and will render correctly\n\n**OUTPUT:** Clean, documentation-ready markdown that serves as architectural overview for engineers."

/-- The per-block validation pass of `validatorAgent` (`src/cli.js:508`–`516`). -/
def blockResults (doc : List Char) : List (MermaidBlock × ValidationResult) :=
  (extractMermaidBlocks doc).map (fun b => (b, validateMermaidSyntax b.content))

/-- The full prompt string handed to the rewrite collaborator (`src/cli.js:554`). -/
def agentPrompt (firstDraft : List Char) : List Char :=
  promptHead.data ++ (validationSummary (blockResults firstDraft)).data
    ++ promptMid.data ++ firstDraft ++ promptTail.data

/-- Observable outcome of one `validatorAgent` run: the returned document, how
many times the rewrite collaborator was invoked, the per-block re-validation
verdicts logged for the rewritten document (when a rewrite happened), and the
rewrite error message logged on the fallback path (when the rewrite threw). -/
structure AgentResult where
  document : List Char
  rewriteCalls : Nat
  revalidation : Option (List Bool)
  rewriteError : Option String
deriving DecidableEq

/-- JS source `validatorAgent` (`src/cli.js:499`): extract and validate all
blocks; if none is invalid return the draft untouched without calling the
model; otherwise send the prompt to the rewrite collaborator, re-extract and
re-validate its answer and return it (best effort), or fall back to the
original draft if the collaborator throws. -/
def validatorAgent (firstDraft : List Char)
    (rewrite : List Char → Except String (List Char)) : AgentResult :=
  if ((blockResults firstDraft).filter (fun r => !r.2.isValid)).length = 0 then
    ⟨firstDraft, 0, none, none⟩
  else
    match rewrite (agentPrompt firstDraft) with
    | Except.ok validatedResult =>
      ⟨validatedResult, 1,
       some ((extractMermaidBlocks validatedResult).map
         (fun b => (validateMermaidSyntax b.content).isValid)),
       none⟩
    | Except.error e => ⟨firstDraft, 1, none, some e⟩

/-- The document family of spec Example 4: three `mermaid` fences where the
second has no closing fence before the third opener. -/
def doc4 (a b : List Char) : List Char :=
  mermaidOpen ++ (a ++ (closeFence ++ ("\n".data ++ (mermaidOpen ++ (b ++
    ("\n".data ++ (mermaidOpen ++ ("C".data ++ closeFence))))))))

lemma dropWhile_eq_self_of (p : Char → Bool) (l : List Char)
    (h : ∀ c ∈ l, p c = false) : l.dropWhile p = l := by
  cases l with
  | nil => rfl
  | cons x xs => simp [List.dropWhile_cons, h x (by simp)]

lemma trim_eq_self (l : List Char) (h : ∀ c ∈ l, isWS c = false) : trim l = l := by
  unfold trim
  rw [dropWhile_eq_self_of _ _ h, dropWhile_eq_self_of _ _ (by intro c hc; exact h c (by simpa using hc)),
    List.reverse_reverse]

lemma isPre_append_self (p r : List Char) : isPre p (p ++ r) = true := by
  induction p with
  | nil => rfl
  | cons a as ih => simp [isPre, ih]

lemma isPre_decomp (p : List Char) : ∀ l, isPre p l = true → l = p ++ l.drop p.length := by
  induction p with
  | nil => intro l _; simp
  | cons a as ih =>
    intro l h
    cases l with
    | nil => simp [isPre] at h
    | cons b bs =>
      simp only [isPre, Bool.and_eq_true, decide_eq_true_eq] at h
      obtain ⟨rfl, h2⟩ := h
      simpa using ih bs h2

lemma isPre_subset (p l : List Char) (h : isPre p l = true) : ∀ c ∈ p, c ∈ l := by
  intro c hc
  rw [isPre_decomp p l h]
  exact List.mem_append_left _ hc

lemma findSub_sound (pat : List Char) :
    ∀ l i, findSub pat l = some i → isPre pat (l.drop i) = true := by
  intro l
  induction l with
  | nil =>
    intro i h
    simp only [findSub] at h
    split at h
    · cases h; assumption
    · simp at h
  | cons x t ih =>
    intro i h
    simp only [findSub] at h
    split at h
    · cases h; assumption
    · simp only [Option.map_eq_some'] at h
      obtain ⟨j, hj, rfl⟩ := h
      simpa using ih j hj

lemma findSub_of_isPre (pat l : List Char) (h : isPre pat l = true) :
    findSub pat l = some 0 := by
  cases l with
  | nil => simp [findSub, h]
  | cons x t => simp [findSub, h]

lemma findSub_cons_of_not_isPre (pat : List Char) (x : Char) (t : List Char)
    (h : isPre pat (x :: t) = false) :
    findSub pat (x :: t) = (findSub pat t).map (· + 1) := by
  simp [findSub, h]

lemma findSub_append_of_head_notin (c : Char) (pt a r : List Char) (h : c ∉ a) :
    findSub (c :: pt) (a ++ r) = (findSub (c :: pt) r).map (· + a.length) := by
  induction a with
  | nil =>
    simp only [List.nil_append, List.length_nil]
    cases findSub (c :: pt) r <;> simp
  | cons x xs ih =>
    have hxc : ¬(c = x) := fun hc => h (by simp [hc])
    have hpre : isPre (c :: pt) (x :: (xs ++ r)) = false := by
      simp [isPre, hxc]
    rw [List.cons_append, findSub_cons_of_not_isPre _ _ _ hpre, ih (fun hm => h (by simp [hm]))]
    cases findSub (c :: pt) r <;> simp [Nat.add_assoc]

lemma containsSub_decomp (pat x y : List Char) : containsSub pat (x ++ pat ++ y) = true := by
  induction x with
  | nil =>
    simp only [List.nil_append]
    unfold containsSub
    rw [findSub_of_isPre _ _ (isPre_append_self pat y)]
    rfl
  | cons c xs ih =>
    unfold containsSub
    simp only [List.cons_append, findSub]
    split
    · rfl
    · simpa [Option.isSome_map] using ih

lemma mem_of_containsSub (pat l : List Char) (c : Char) (h : containsSub pat l = true)
    (hc : c ∈ pat) : c ∈ l := by
  unfold containsSub at h
  obtain ⟨i, hi⟩ := Option.isSome_iff_exists.1 h
  exact List.drop_subset i l (isPre_subset _ _ (findSub_sound pat l i hi) c hc)

lemma containsSub_eq_false (pat l : List Char) (c : Char) (hc : c ∈ pat) (hl : c ∉ l) :
    containsSub pat l = false := by
  cases hcs : containsSub pat l with
  | false => rfl
  | true => exact absurd (mem_of_containsSub pat l c hcs hc) hl

lemma findSubFrom_sound (pat s : List Char) (start o : Nat)
    (h : findSubFrom pat s start = some o) :
    start ≤ o ∧ isPre pat (s.drop o) = true := by
  unfold findSubFrom at h
  simp only [Option.map_eq_some'] at h
  obtain ⟨j, hj, rfl⟩ := h
  refine ⟨Nat.le_add_left _ _, ?_⟩
  have := findSub_sound pat (s.drop start) j hj
  rwa [List.drop_drop, Nat.add_comm] at this

lemma splitOnNl_cons_ne (c : Char) (rest : List Char) (h : ¬(c = '\n')) :
    splitOnNl (c :: rest) =
      match splitOnNl rest with
      | [] => [[c]]
      | l :: ls => (c :: l) :: ls := by
  conv_lhs => rw [splitOnNl]
  rw [if_neg h]

lemma splitOnNl_no_nl (l : List Char) (h : '\n' ∉ l) : splitOnNl l = [l] := by
  induction l with
  | nil => rfl
  | cons c rest ih =>
    have hc : ¬(c = '\n') := fun hc => h (by simp [hc])
    rw [splitOnNl_cons_ne _ _ hc, ih (fun hm => h (by simp [hm]))]

lemma splitOnNl_append (a r : List Char) (h : '\n' ∉ a) :
    splitOnNl (a ++ '\n' :: r) = a :: splitOnNl r := by
  induction a with
  | nil => simp [splitOnNl]
  | cons c xs ih =>
    have hc : ¬(c = '\n') := fun hc => h (by simp [hc])
    rw [List.cons_append, splitOnNl_cons_ne _ _ hc, ih (fun hm => h (by simp [hm]))]

lemma nodeWithParensInText_eq_false (l : List Char) (h : '"' ∉ l) :
    nodeWithParensInText l = false := by
  induction l with
  | nil => rfl
  | cons c1 rest ih =>
    unfold nodeWithParensInText
    rw [ih (fun hm => h (by simp [hm]))]
    cases rest with
    | nil => rfl
    | cons c2 rest' =>
      cases rest' with
      | nil => rfl
      | cons c3 rest2 =>
        have hc3 : ¬(c3 = '"') := fun hc => h (by simp [hc])
        simp [hc3]

lemma mem_char_of_all_alphanum (l : List Char) (h : ∀ c ∈ l, c.isAlphanum = true)
    (x : Char) (hx : x.isAlphanum = false) : x ∉ l := by
  intro hm
  rw [h x hm] at hx
  simp at hx

lemma filterInvalid_len_zero (d : List Char) :
    ((blockResults d).filter (fun r => !r.2.isValid)).length = 0 ↔
      (extractMermaidBlocks d).all (fun b => (validateMermaidSyntax b.content).isValid) = true := by
  simp only [blockResults, List.length_eq_zero, List.filter_eq_nil_iff, List.mem_map,
    List.all_eq_true]
  constructor
  · intro h b hb
    have := h (b, validateMermaidSyntax b.content) ⟨b, hb, rfl⟩
    simpa using this
  · rintro h r ⟨b, hb, rfl⟩
    simp [h b hb]

lemma validatorAgent_ok_eq (d out : List Char) (rw : List Char → Except String (List Char))
    (h1 : (extractMermaidBlocks d).all
      (fun b => (validateMermaidSyntax b.content).isValid) = false)
    (h2 : rw (agentPrompt d) = Except.ok out) :
    validatorAgent d rw =
      ⟨out, 1,
       some ((extractMermaidBlocks out).map
         (fun b => (validateMermaidSyntax b.content).isValid)), none⟩ := by
  unfold validatorAgent
  rw [if_neg (fun hlen => by rw [(filterInvalid_len_zero d).1 hlen] at h1; cases h1), h2]

lemma validatorAgent_error_eq (d : List Char) (e : String)
    (rw : List Char → Except String (List Char))
    (h1 : (extractMermaidBlocks d).all
      (fun b => (validateMermaidSyntax b.content).isValid) = false)
    (h2 : rw (agentPrompt d) = Except.error e) :
    validatorAgent d rw = ⟨d, 1, none, some e⟩ := by
  unfold validatorAgent
  rw [if_neg (fun hlen => by rw [(filterInvalid_len_zero d).1 hlen] at h1; cases h1), h2]

lemma validatorAgent_allValid_eq (d : List Char) (rw : List Char → Except String (List Char))
    (h : (extractMermaidBlocks d).all
      (fun b => (validateMermaidSyntax b.content).isValid) = true) :
    validatorAgent d rw = ⟨d, 0, none, none⟩ := by
  unfold validatorAgent
  rw [if_pos ((filterInvalid_len_zero d).2 h)]

/-- Claim C2: for every Document in which all extracted blocks validate as
defect-free (including one with zero fenced blocks), `validatorAgent` returns
the input Document unchanged and never invokes the rewrite collaborator
(the result records zero rewrite calls and does not depend on `rw` at all). -/
theorem validatorAgent_short_circuit (d : List Char)
    (rw : List Char → Except String (List Char))
    (h : (extractMermaidBlocks d).all
      (fun b => (validateMermaidSyntax b.content).isValid) = true) :
    validatorAgent d rw = ⟨d, 0, none, none⟩ :=
  validatorAgent_allValid_eq d rw h

/-- Witness for C2, at a Document with one valid block and at a Document with
zero fenced blocks, against a rewrite collaborator that always throws. -/
theorem validatorAgent_short_circuit_witness :
    validatorAgent "Intro\n```mermaid\nflowchart TD\nA-->B\n```\nOutro".data
        (fun _ => Except.error "down")
      = ⟨"Intro\n```mermaid\nflowchart TD\nA-->B\n```\nOutro".data, 0, none, none⟩ ∧
    validatorAgent "no diagrams here at all".data (fun _ => Except.error "down")
      = ⟨"no diagrams here at all".data, 0, none, none⟩ :=
  ⟨validatorAgent_short_circuit _ _ (by decide),
   validatorAgent_short_circuit _ _ (by decide)⟩

/-- Claim C5: for every Document with at least one invalid block whose rewrite
collaborator answers successfully, `validatorAgent` calls the collaborator
exactly once, re-runs extraction + classification + defect detection on the
rewritten Document, reports the per-block validity of the rewritten blocks,
and returns the rewritten Document even if defects remain (best effort). -/
theorem validatorAgent_rewrite_best_effort (d out : List Char)
    (rw : List Char → Except String (List Char))
    (h1 : (extractMermaidBlocks d).all
      (fun b => (validateMermaidSyntax b.content).isValid) = false)
    (h2 : rw (agentPrompt d) = Except.ok out) :
    validatorAgent d rw =
      ⟨out, 1,
       some ((extractMermaidBlocks out).map
         (fun b => (validateMermaidSyntax b.content).isValid)), none⟩ :=
  validatorAgent_ok_eq d out rw h1 h2

/-- Witness for C5: a rewrite whose answer still contains one (valid) block. -/
theorem validatorAgent_rewrite_best_effort_witness :
    validatorAgent "```mermaid\nflowchart TD\nx([Label])\n```".data
        (fun _ => Except.ok "```mermaid\nflowchart TD\nx[Label]\n```".data)
      = ⟨"```mermaid\nflowchart TD\nx[Label]\n```".data, 1, some [true], none⟩ :=
  (validatorAgent_rewrite_best_effort "```mermaid\nflowchart TD\nx([Label])\n```".data
    "```mermaid\nflowchart TD\nx[Label]\n```".data
    (fun _ => Except.ok "```mermaid\nflowchart TD\nx[Label]\n```".data)
    (by decide) rfl).trans (by decide)

/-- Claim C6: when the rewrite collaborator always throws, `validatorAgent`
does not propagate the exception: it returns the original, pre-repair
Document, and when a rewrite was actually attempted the failure is surfaced
as a distinguishable error value rather than a crash. -/
theorem validatorAgent_rewrite_throws (d : List Char) (e : String)
    (rw : List Char → Except String (List Char))
    (herr : ∀ p, rw p = Except.error e) :
    (validatorAgent d rw).document = d ∧
    ((extractMermaidBlocks d).all
        (fun b => (validateMermaidSyntax b.content).isValid) = false →
      (validatorAgent d rw).rewriteError = some e) := by
  by_cases hall : (extractMermaidBlocks d).all
      (fun b => (validateMermaidSyntax b.content).isValid) = true
  · rw [validatorAgent_allValid_eq d rw hall]
    exact ⟨rfl, fun hf => by rw [hall] at hf; cases hf⟩
  · have hf : (extractMermaidBlocks d).all
        (fun b => (validateMermaidSyntax b.content).isValid) = false := by
      revert hall
      cases (extractMermaidBlocks d).all
        (fun b => (validateMermaidSyntax b.content).isValid) <;> simp
    rw [validatorAgent_error_eq d e rw hf (herr _)]
    exact ⟨rfl, fun _ => rfl⟩

/-- Witness for C6: one invalid block, a collaborator that always throws. -/
theorem validatorAgent_rewrite_throws_witness :
    (validatorAgent "```mermaid\nflowchart TD\ny([L])\n```".data
        (fun _ => Except.error "boom")).document
      = "```mermaid\nflowchart TD\ny([L])\n```".data ∧
    (validatorAgent "```mermaid\nflowchart TD\ny([L])\n```".data
        (fun _ => Except.error "boom")).rewriteError = some "boom" := by
  have h := validatorAgent_rewrite_throws "```mermaid\nflowchart TD\ny([L])\n```".data
    "boom" (fun _ => Except.error "boom") (fun _ => rfl)
  exact ⟨h.1, h.2 (by decide)⟩

/-- Claim C10: after a rewrite, the per-block validity sequence is computed
over the blocks extracted from the rewritten Document (not the original one):
it is exactly the validity map over the rewritten Document's blocks and its
length is the rewritten Document's block count. -/
theorem validatorAgent_revalidation_over_rewritten (d out : List Char)
    (rw : List Char → Except String (List Char))
    (h1 : (extractMermaidBlocks d).all
      (fun b => (validateMermaidSyntax b.content).isValid) = false)
    (h2 : rw (agentPrompt d) = Except.ok out) :
    (validatorAgent d rw).revalidation =
      some ((extractMermaidBlocks out).map
        (fun b => (validateMermaidSyntax b.content).isValid)) ∧
    (validatorAgent d rw).revalidation.map List.length =
      some (extractMermaidBlocks out).length := by
  rw [validatorAgent_ok_eq d out rw h1 h2]
  simp

/-- Witness for C10: the rewritten Document has zero blocks while the original
had one, so the reported validity sequence has length 0, not 1. -/
theorem validatorAgent_revalidation_over_rewritten_witness :
    (validatorAgent "```mermaid\nflowchart TD\nz([Q])\n```".data
        (fun _ => Except.ok "All prose now.".data)).revalidation = some [] ∧
    (extractMermaidBlocks "```mermaid\nflowchart TD\nz([Q])\n```".data).length = 1 := by
  have h := validatorAgent_revalidation_over_rewritten
    "```mermaid\nflowchart TD\nz([Q])\n```".data "All prose now.".data
    (fun _ => Except.ok "All prose now.".data) (by decide) rfl
  exact ⟨h.1.trans (by decide), by decide⟩

lemma extractLoopF_spec (fuel : Nat) :
    ∀ (s : List Char) (pos idx : Nat) (b : MermaidBlock), b ∈ extractLoopF fuel s pos idx →
      ∃ pre between post,
        s = pre ++ mermaidOpen ++ between ++ closeFence ++ post ∧
        b.content = trim between ∧
        b.fullMatch = mermaidOpen ++ between ++ closeFence := by
  induction fuel with
  | zero => intro s pos idx b hb; simp [extractLoopF] at hb
  | succ fuel ih =>
    intro s pos idx b hb
    rw [extractLoopF] at hb
    cases h1 : findSubFrom mermaidOpen s pos with
    | none => simp only [h1] at hb; simp at hb
    | some o =>
      simp only [h1] at hb
      cases h2 : findSubFrom closeFence s (o + mermaidOpen.length) with
      | none => simp only [h2] at hb; simp at hb
      | some c =>
        simp only [h2] at hb
        simp only [List.mem_cons] at hb
        rcases hb with rfl | hb
        · obtain ⟨_, hpre1⟩ := findSubFrom_sound _ _ _ _ h1
          obtain ⟨hc, hpre2⟩ := findSubFrom_sound _ _ _ _ h2
          refine ⟨s.take o,
            (s.drop (o + mermaidOpen.length)).take (c - (o + mermaidOpen.length)),
            s.drop (c + closeFence.length), ?_, rfl, rfl⟩
          have e1 : s.drop o = mermaidOpen ++ s.drop (o + mermaidOpen.length) := by
            have h := isPre_decomp _ _ hpre1
            rwa [List.drop_drop] at h
          have e2 : s.drop c = closeFence ++ s.drop (c + closeFence.length) := by
            have h := isPre_decomp _ _ hpre2
            rwa [List.drop_drop] at h
          have e3 : s.drop (o + mermaidOpen.length) =
              (s.drop (o + mermaidOpen.length)).take (c - (o + mermaidOpen.length)) ++ s.drop c := by
            conv_lhs => rw [← List.take_append_drop (c - (o + mermaidOpen.length))
              (s.drop (o + mermaidOpen.length))]
            rw [List.drop_drop]
            congr 2
            omega
          calc s = s.take o ++ s.drop o := (List.take_append_drop o s).symm
            _ = s.take o ++ (mermaidOpen ++ s.drop (o + mermaidOpen.length)) := by rw [e1]
            _ = s.take o ++ (mermaidOpen ++
                ((s.drop (o + mermaidOpen.length)).take (c - (o + mermaidOpen.length)) ++ s.drop c)) := by
              rw [← e3]
            _ = s.take o ++ mermaidOpen ++
                (s.drop (o + mermaidOpen.length)).take (c - (o + mermaidOpen.length)) ++
                closeFence ++ s.drop (c + closeFence.length) := by
              rw [e2]; simp [List.append_assoc]
        · exact ih s _ _ b hb

/-- Claim C1 (amended): every extracted block sits at a fence pair of the
Document — the Document splits as prose-before ++ fence-open ++ between-text ++
fence-close ++ prose-after — and `content` is the whitespace-**trimmed**
between-text (`match[1].trim()` in the source), so splicing `content` between
the fences reconstructs the original span exactly when the between-text
carries no leading/trailing whitespace. -/
theorem extract_roundTrip_trim (s : List Char) (b : MermaidBlock)
    (hb : b ∈ extractMermaidBlocks s) :
    ∃ pre between post,
      s = pre ++ mermaidOpen ++ between ++ closeFence ++ post ∧
      b.content = trim between ∧
      b.fullMatch = mermaidOpen ++ between ++ closeFence ∧
      (trim between = between →
        pre ++ mermaidOpen ++ b.content ++ closeFence ++ post = s) := by
  obtain ⟨pre, between, post, hs, hc, hf⟩ :=
    extractLoopF_spec (s.length + 1) s 0 1 b hb
  exact ⟨pre, between, post, hs, hc, hf, fun ht => by rw [hc, ht, hs]⟩

/-- Witness for C1 (amended), at a one-block Document with already-trimmed
between-text. -/
theorem extract_roundTrip_trim_witness :
    ∃ pre between post,
      "pre\n```mermaid\nflowchart TD\n```\npost".data
        = pre ++ mermaidOpen ++ between ++ closeFence ++ post ∧
      (⟨1, "flowchart", "flowchart TD".data,
        "```mermaid\nflowchart TD\n```".data⟩ : MermaidBlock).content = trim between ∧
      (⟨1, "flowchart", "flowchart TD".data,
        "```mermaid\nflowchart TD\n```".data⟩ : MermaidBlock).fullMatch
        = mermaidOpen ++ between ++ closeFence ∧
      (trim between = between →
        pre ++ mermaidOpen ++
          (⟨1, "flowchart", "flowchart TD".data,
            "```mermaid\nflowchart TD\n```".data⟩ : MermaidBlock).content ++ closeFence ++ post
          = "pre\n```mermaid\nflowchart TD\n```\npost".data) :=
  extract_roundTrip_trim "pre\n```mermaid\nflowchart TD\n```\npost".data
    ⟨1, "flowchart", "flowchart TD".data, "```mermaid\nflowchart TD\n```".data⟩ (by decide)

/-- Counterexample to C1 as stated: when the between-text carries surrounding
whitespace, `content` is not the text between the fences (it is trimmed), and
splicing prose-before ++ fence-open ++ content ++ fence-close ++ prose-after
does not reconstruct the original Document span. -/
theorem extract_roundTrip_exact_counterexample :
    "```mermaid\n flowchart TD \n```".data
      = mermaidOpen ++ " flowchart TD ".data ++ closeFence ∧
    (extractMermaidBlocks "```mermaid\n flowchart TD \n```".data).map (·.content)
      = ["flowchart TD".data] ∧
    mermaidOpen ++ "flowchart TD".data ++ closeFence
      ≠ "```mermaid\n flowchart TD \n```".data := by decide

lemma extractLoopF_step (fuel : Nat) (s : List Char) (pos idx o c : Nat)
    (h1 : findSubFrom mermaidOpen s pos = some o)
    (h2 : findSubFrom closeFence s (o + mermaidOpen.length) = some c) :
    extractLoopF (fuel + 1) s pos idx =
      { index := idx
        type := detectMermaidType
          (trim ((s.drop (o + mermaidOpen.length)).take (c - (o + mermaidOpen.length))))
        content := trim ((s.drop (o + mermaidOpen.length)).take (c - (o + mermaidOpen.length)))
        fullMatch := mermaidOpen ++
          (s.drop (o + mermaidOpen.length)).take (c - (o + mermaidOpen.length)) ++ closeFence } ::
      extractLoopF fuel s (c + closeFence.length) (idx + 1) := by
  show extractLoopF (Nat.succ fuel) s pos idx = _
  rw [extractLoopF]
  simp only [h1, h2]

lemma extractLoopF_stop (fuel : Nat) (s : List Char) (pos idx : Nat)
    (h1 : findSubFrom mermaidOpen s pos = none) :
    extractLoopF (fuel + 1) s pos idx = [] := by
  show extractLoopF (Nat.succ fuel) s pos idx = _
  rw [extractLoopF]
  simp only [h1]

lemma isWS_eq_false_of_alphanum (c : Char) (h : c.isAlphanum = true) : isWS c = false := by
  cases hw : isWS c with
  | false => rfl
  | true =>
    exfalso
    unfold isWS at hw
    simp only [Bool.or_eq_true, decide_eq_true_eq] at hw
    rcases hw with ((rfl | rfl) | rfl) | rfl
    all_goals exact absurd h (by decide)

lemma findSub_closeFence_append (a r : List Char) (h : '\n' ∉ a) :
    findSub closeFence (a ++ r) = (findSub closeFence r).map (· + a.length) := by
  rw [show closeFence = '\n' :: "```".data from rfl]
  exact findSub_append_of_head_notin _ _ _ _ h

lemma findSub_mermaidOpen_append (a r : List Char) (h : '`' ∉ a) :
    findSub mermaidOpen (a ++ r) = (findSub mermaidOpen r).map (· + a.length) := by
  rw [show mermaidOpen = '`' :: "``mermaid\n".data from rfl]
  exact findSub_append_of_head_notin _ _ _ _ h

lemma isPre_closeFence_nl_open (x : List Char) :
    isPre closeFence ('\n' :: (mermaidOpen ++ x)) = true := by
  have h : '\n' :: (mermaidOpen ++ x) = closeFence ++ ("mermaid\n".data ++ x) := by
    rw [show mermaidOpen = "```".data ++ "mermaid\n".data from rfl,
      show closeFence = '\n' :: "```".data from rfl]
    simp [List.append_assoc]
  rw [h]
  exact isPre_append_self _ _

lemma drop_append_add (l₁ l₂ : List Char) (n m : Nat) (h : n = l₁.length) :
    (l₁ ++ l₂).drop (n + m) = l₂.drop m := by
  subst h
  rw [← List.drop_drop, List.drop_left]

/-- Claim C4 (amended): on a Document with three `mermaid` openers where the
second block has no closing fence before the third opener, extraction returns
exactly two blocks — the first with its own content, and the second whose
content is the text between the second opener and the third opener (whose
backticks are misread as the second block's closing fence); the third block's
own content is dropped. -/
theorem extract_unterminated_second_merged (a b : List Char)
    (ha : ∀ c ∈ a, c.isAlphanum = true) (hb : ∀ c ∈ b, c.isAlphanum = true) :
    (extractMermaidBlocks (doc4 a b)).map (·.content) = [a, b] := by
  have hna : '\n' ∉ a := mem_char_of_all_alphanum a ha '\n' (by decide)
  have hnb : '\n' ∉ b := mem_char_of_all_alphanum b hb '\n' (by decide)
  have h11 : mermaidOpen.length = 11 := rfl
  have h4 : closeFence.length = 4 := rfl
  have hnl1 : ("\n".data).length = 1 := rfl
  have hdrop0 : (doc4 a b).drop (0 + mermaidOpen.length) =
      a ++ (closeFence ++ ("\n".data ++ (mermaidOpen ++ (b ++ ("\n".data ++
        (mermaidOpen ++ ("C".data ++ closeFence))))))) := by
    rw [Nat.zero_add]
    unfold doc4
    exact List.drop_left _ _
  have eA : findSubFrom mermaidOpen (doc4 a b) 0 = some 0 := by
    unfold findSubFrom
    rw [List.drop_zero, findSub_of_isPre _ _ (by unfold doc4; exact isPre_append_self _ _)]
    rfl
  have eB : findSubFrom closeFence (doc4 a b) (0 + mermaidOpen.length)
      = some (11 + a.length) := by
    unfold findSubFrom
    rw [hdrop0, findSub_closeFence_append _ _ hna,
      findSub_of_isPre _ _ (isPre_append_self _ _)]
    simp only [Option.map_some', h11]
    exact congrArg some (by omega)
  have hdropA : (doc4 a b).drop (11 + a.length + closeFence.length) =
      "\n".data ++ (mermaidOpen ++ (b ++ ("\n".data ++
        (mermaidOpen ++ ("C".data ++ closeFence))))) := by
    rw [show 11 + a.length + closeFence.length
        = mermaidOpen.length + (a.length + (closeFence.length + 0)) from by
      rw [h11, h4]; omega]
    unfold doc4
    rw [drop_append_add mermaidOpen _ _ _ rfl, drop_append_add a _ _ _ rfl,
      drop_append_add closeFence _ _ _ rfl, List.drop_zero]
  have eC : findSubFrom mermaidOpen (doc4 a b) (11 + a.length + closeFence.length)
      = some (16 + a.length) := by
    unfold findSubFrom
    rw [hdropA, findSub_mermaidOpen_append "\n".data _ (by decide),
      findSub_of_isPre _ _ (isPre_append_self _ _)]
    simp only [Option.map_some', h4, hnl1]
    exact congrArg some (by omega)
  have hdropB : (doc4 a b).drop (16 + a.length + mermaidOpen.length) =
      b ++ ("\n".data ++ (mermaidOpen ++ ("C".data ++ closeFence))) := by
    rw [show 16 + a.length + mermaidOpen.length
        = mermaidOpen.length + (a.length + (closeFence.length + (("\n".data).length +
          (mermaidOpen.length + 0)))) from by rw [h11, h4, hnl1]; omega]
    unfold doc4
    rw [drop_append_add mermaidOpen _ _ _ rfl, drop_append_add a _ _ _ rfl,
      drop_append_add closeFence _ _ _ rfl, drop_append_add "\n".data _ _ _ rfl,
      drop_append_add mermaidOpen _ _ _ rfl, List.drop_zero]
  have eD : findSubFrom closeFence (doc4 a b) (16 + a.length + mermaidOpen.length)
      = some (27 + a.length + b.length) := by
    unfold findSubFrom
    rw [hdropB, findSub_closeFence_append _ _ hnb,
      show ("\n".data ++ (mermaidOpen ++ ("C".data ++ closeFence)))
        = '\n' :: (mermaidOpen ++ ("C".data ++ closeFence)) from rfl,
      findSub_of_isPre _ _ (isPre_closeFence_nl_open _)]
    simp only [Option.map_some', h11]
    exact congrArg some (by omega)
  have hdropC : (doc4 a b).drop (27 + a.length + b.length + closeFence.length)
      = "mermaid\nC\n```".data := by
    rw [show 27 + a.length + b.length + closeFence.length
        = mermaidOpen.length + (a.length + (closeFence.length + (("\n".data).length +
          (mermaidOpen.length + (b.length + (("\n".data).length + 3)))))) from by
      rw [h11, h4, hnl1]; omega]
    unfold doc4
    rw [drop_append_add mermaidOpen _ _ _ rfl, drop_append_add a _ _ _ rfl,
      drop_append_add closeFence _ _ _ rfl, drop_append_add "\n".data _ _ _ rfl,
      drop_append_add mermaidOpen _ _ _ rfl, drop_append_add b _ _ _ rfl,
      drop_append_add "\n".data _ _ _ rfl]
    decide
  have eE : findSubFrom mermaidOpen (doc4 a b)
      (27 + a.length + b.length + closeFence.length) = none := by
    unfold findSubFrom
    rw [hdropC, show findSub mermaidOpen "mermaid\nC\n```".data = none from by decide]
    rfl
  have hb1 : ((doc4 a b).drop (0 + mermaidOpen.length)).take
      (11 + a.length - (0 + mermaidOpen.length)) = a := by
    rw [hdrop0, show 11 + a.length - (0 + mermaidOpen.length) = a.length from by
      rw [h11]; omega]
    exact List.take_left' rfl
  have hb2 : ((doc4 a b).drop (16 + a.length + mermaidOpen.length)).take
      (27 + a.length + b.length - (16 + a.length + mermaidOpen.length)) = b := by
    rw [hdropB, show 27 + a.length + b.length - (16 + a.length + mermaidOpen.length)
        = b.length from by rw [h11]; omega]
    exact List.take_left' rfl
  have hlen : (doc4 a b).length + 1 = ((doc4 a b).length - 2) + 3 := by
    have h : 11 ≤ (doc4 a b).length := by
      unfold doc4
      rw [List.length_append, h11]
      omega
    omega
  unfold extractMermaidBlocks
  rw [hlen, (by omega : (doc4 a b).length - 2 + 3 = ((doc4 a b).length - 2 + 2) + 1),
    extractLoopF_step _ _ _ _ _ _ eA eB,
    (by omega : (doc4 a b).length - 2 + 2 = ((doc4 a b).length - 2 + 1) + 1),
    extractLoopF_step _ _ _ _ _ _ eC eD,
    extractLoopF_stop _ _ _ _ eE]
  simp only [List.map_cons, List.map_nil]
  rw [hb1, hb2, trim_eq_self a (fun c hc => isWS_eq_false_of_alphanum c (ha c hc)),
    trim_eq_self b (fun c hc => isWS_eq_false_of_alphanum c (hb c hc))]

/-- Witness for C4 (amended), at single-letter block contents. -/
theorem extract_unterminated_second_merged_witness :
    (extractMermaidBlocks (doc4 "A".data "B".data)).map (·.content)
      = ["A".data, "B".data] :=
  extract_unterminated_second_merged "A".data "B".data (by decide) (by decide)

/-- Counterexample to C4 as stated: on the three-block Document with an
unterminated second block, extraction returns the first block and a block
carrying the *second* unterminated block's content; the third block's content
`C` appears in no extracted block, so the result is not "the first and the
third, each with its own content". -/
theorem extract_unterminated_counterexample :
    (extractMermaidBlocks
        "```mermaid\nA\n```\n```mermaid\nB\n```mermaid\nC\n```".data).map (·.content)
      = ["A".data, "B".data] ∧
    "C".data ∉ (extractMermaidBlocks
        "```mermaid\nA\n```\n```mermaid\nB\n```mermaid\nC\n```".data).map (·.content) := by
  decide

/-- Claim C3, evaluated at the failing inputs: the classifier lower-cases the
first line but then tests containment of the mixed-case literals
`classDiagram`, `stateDiagram`, `erDiagram`, so those three branches can never
fire and such declarations classify as `unknown` — even though
`validateMermaidSyntax`'s own type check (which lower-cases both sides)
accepts the very same first line as a valid declaration. -/
theorem detectMermaidType_dead_branches :
    detectMermaidType "classDiagram".data = "unknown" ∧
    detectMermaidType "stateDiagram".data = "unknown" ∧
    detectMermaidType "erDiagram".data = "unknown" ∧
    (validateMermaidSyntax "classDiagram\nAnimal <|-- Duck".data).isValid = true ∧
    detectMermaidType "flowchart TD".data = "flowchart" := by decide

lemma lineErrorsAllE_ok (lines : List (List Char)) :
    ∀ i, lineErrorsAllE (fun l n => Except.ok (lineErrors l n)) lines i
      = Except.ok (lineErrorsAll lines i) := by
  induction lines with
  | nil => intro i; rfl
  | cons l rest ih => intro i; simp [lineErrorsAllE, lineErrorsAll, ih]

/-- With the actual (never-throwing) per-line checks, the `try`/`catch`
embedding agrees with `validateMermaidSyntax`. -/
lemma validateMermaidSyntaxT_agrees (c : List Char) :
    validateMermaidSyntaxT (fun l n => Except.ok (lineErrors l n)) c
      = validateMermaidSyntax c := by
  simp only [validateMermaidSyntaxT, validateMermaidSyntax, validationErrors,
    lineErrorsAllE_ok]

/-- Claim C7 (amended): `validateMermaidSyntax` is total, and when a per-line
check throws, the catch clause converts the exception into exactly one
`Validation error:` defect that *replaces* the block's whole defect list —
validation of that block's remaining lines is aborted and earlier findings are
discarded (each block is validated by an independent call, so other blocks of
the Document are still validated). -/
theorem validateMermaidSyntaxT_catch_single_defect
    (check : List Char → Nat → Except String (List String)) (content : List Char)
    (msg : String)
    (h : lineErrorsAllE check (splitOnNl content) 1 = Except.error msg) :
    validateMermaidSyntaxT check content = ⟨false, ["Validation error: " ++ msg]⟩ := by
  simp only [validateMermaidSyntaxT, h]

/-- Witness for C7 (amended): a check that throws at line 2 of a three-line
block. -/
theorem validateMermaidSyntaxT_catch_single_defect_witness :
    validateMermaidSyntaxT
        (fun l n => if n = 2 then Except.error "boom" else Except.ok (lineErrors l n))
        "flowchart TD\nok\nx[".data
      = ⟨false, ["Validation error: boom"]⟩ :=
  validateMermaidSyntaxT_catch_single_defect _ _ _ rfl

/-- Counterexample to C7 as stated: with a check that throws at line 2, the
result is the single internal-error defect; the defect that full validation
finds at line 3 is *not* reported, so validation did not continue for the
remaining lines of the block. -/
theorem validateMermaidSyntax_catch_aborts_counterexample :
    validateMermaidSyntaxT
        (fun l n => if n = 2 then Except.error "oops" else Except.ok (lineErrors l n))
        "flowchart TD\ny[\nz[".data
      = ⟨false, ["Validation error: oops"]⟩ ∧
    validateMermaidSyntax "flowchart TD\ny[\nz[".data
      = ⟨false, [msgUnmatchedBrackets 2, msgUnmatchedBrackets 3]⟩ ∧
    msgUnmatchedBrackets 3 ∉
      (validateMermaidSyntaxT
        (fun l n => if n = 2 then Except.error "oops" else Except.ok (lineErrors l n))
        "flowchart TD\ny[\nz[".data).errors := by decide

lemma containsSub_suffix (pat x : List Char) : containsSub pat (x ++ pat) = true := by
  have h := containsSub_decomp pat x []
  simpa using h

lemma lineErrors_mixed_shape (id lbl : List Char) (n : Nat)
    (hid : ∀ c ∈ id, c.isAlphanum = true) (hlbl : ∀ c ∈ lbl, c.isAlphanum = true) :
    lineErrors (id ++ "([".data ++ lbl ++ "])".data) n = [msgMixedShape n] := by
  set line := id ++ "([".data ++ lbl ++ "])".data with hline
  have hmem : ∀ c, c ∈ line → c ∈ id ∨ c ∈ "([".data ∨ c ∈ lbl ∨ c ∈ "])".data := by
    intro c hc
    rw [hline] at hc
    simp only [List.mem_append] at hc
    tauto
  have hnotmem : ∀ x : Char, x.isAlphanum = false →
      x ∉ "([".data → x ∉ "])".data → x ∉ line := by
    intro x hx h1 h2 hm
    rcases hmem x hm with h | h | h | h
    · rw [hid x h] at hx; simp at hx
    · exact h1 h
    · rw [hlbl x h] at hx; simp at hx
    · exact h2 h
  have hws : ∀ c ∈ line, isWS c = false := by
    have hl1 : ∀ x ∈ "([".data, isWS x = false := by decide
    have hl2 : ∀ x ∈ "])".data, isWS x = false := by decide
    intro c hc
    rcases hmem c hc with h | h | h | h
    · exact isWS_eq_false_of_alphanum c (hid c h)
    · exact hl1 c h
    · exact isWS_eq_false_of_alphanum c (hlbl c h)
    · exact hl2 c h
  have hn : line ≠ [] := by
    rw [hline]
    exact List.append_ne_nil_of_right_ne_nil _ (by decide)
  have hie : line.isEmpty = false := by
    cases he : line with
    | nil => exact absurd he hn
    | cons c t => rfl
  have hpc : isPre "%%".data line = false := by
    cases hp : isPre "%%".data line with
    | false => rfl
    | true =>
      exact absurd (isPre_subset _ _ hp '%' (by decide))
        (hnotmem '%' (by decide) (by decide) (by decide))
  have hcnt : ∀ x : Char, x.isAlphanum = false →
      line.count x = "([".data.count x + "])".data.count x := by
    intro x hx
    rw [hline]
    rw [List.count_append, List.count_append, List.count_append,
      List.count_eq_zero.2 (mem_char_of_all_alphanum id hid x hx),
      List.count_eq_zero.2 (mem_char_of_all_alphanum lbl hlbl x hx)]
    omega
  have hsq : line.count '[' = line.count ']' := by
    rw [hcnt '[' (by decide), hcnt ']' (by decide)]
    decide
  have hpp : line.count '(' = line.count ')' := by
    rw [hcnt '(' (by decide), hcnt ')' (by decide)]
    decide
  have hc1 : containsSub "([".data line = true := by
    rw [hline, List.append_assoc (id ++ "([".data) lbl "])".data]
    exact containsSub_decomp _ _ _
  have hc2 : containsSub "])".data line = true := by
    rw [hline]
    exact containsSub_suffix _ _
  have hnc1 : containsSub "]\x7b".data line = false :=
    containsSub_eq_false _ _ '\x7b' (by decide)
      (hnotmem '\x7b' (by decide) (by decide) (by decide))
  have hnc2 : containsSub "\x7d[".data line = false :=
    containsSub_eq_false _ _ '\x7d' (by decide)
      (hnotmem '\x7d' (by decide) (by decide) (by decide))
  have hnc3 : containsSub "-->-".data line = false :=
    containsSub_eq_false _ _ '-' (by decide)
      (hnotmem '-' (by decide) (by decide) (by decide))
  have hnc4 : containsSub "--->>".data line = false :=
    containsSub_eq_false _ _ '-' (by decide)
      (hnotmem '-' (by decide) (by decide) (by decide))
  have hnp : nodeWithParensInText line = false :=
    nodeWithParensInText_eq_false line
      (hnotmem '"' (by decide) (by decide) (by decide))
  simp only [lineErrors, trim_eq_self line hws, hie, hpc, hsq, hpp, hc1, hc2,
    hnc1, hnc2, hnc3, hnc4, hnp]
  simp

/-- Claim C8: a line of the form `id([lbl])` (identifier and label made of
word characters, so bracket and parenthesis counts are individually balanced)
produces exactly one defect, the mixed-shape-delimiters one; a block whose
first line is a valid `flowchart TD` declaration and whose second line is such
a node yields exactly that single defect. -/
theorem validateMermaid_mixed_shape_defect (id lbl : List Char) (n : Nat)
    (hid : ∀ c ∈ id, c.isAlphanum = true) (hlbl : ∀ c ∈ lbl, c.isAlphanum = true) :
    lineErrors (id ++ "([".data ++ lbl ++ "])".data) n = [msgMixedShape n] ∧
    validateMermaidSyntax
        ("flowchart TD".data ++ '\n' :: (id ++ "([".data ++ lbl ++ "])".data))
      = ⟨false, [msgMixedShape 2]⟩ := by
  refine ⟨lineErrors_mixed_shape id lbl n hid hlbl, ?_⟩
  have hnin : '\n' ∉ (id ++ "([".data ++ lbl ++ "])".data) := by
    intro hm
    simp only [List.mem_append] at hm
    rcases hm with ((h | h) | h) | h
    · exact absurd (hid _ h) (by decide)
    · exact absurd h (by decide)
    · exact absurd (hlbl _ h) (by decide)
    · exact absurd h (by decide)
  have hsplit : splitOnNl
      ("flowchart TD".data ++ '\n' :: (id ++ "([".data ++ lbl ++ "])".data))
      = ["flowchart TD".data, id ++ "([".data ++ lbl ++ "])".data] := by
    rw [splitOnNl_append _ _ (by decide), splitOnNl_no_nl _ hnin]
  have htype : typeDeclErrors
      ["flowchart TD".data, id ++ "([".data ++ lbl ++ "])".data] = [] := by
    unfold typeDeclErrors
    rw [List.headD_cons, if_pos (by decide)]
  have herr : validationErrors
      ("flowchart TD".data ++ '\n' :: (id ++ "([".data ++ lbl ++ "])".data))
      = [msgMixedShape 2] := by
    unfold validationErrors
    rw [hsplit, htype]
    simp only [lineErrorsAll]
    rw [show (1 + 1 : Nat) = 2 from rfl, lineErrors_mixed_shape id lbl 2 hid hlbl,
      show lineErrors "flowchart TD".data 1 = [] from by decide]
    simp
  unfold validateMermaidSyntax
  rw [herr]
  decide

/-- Witness for C8 at `x([Label])`. -/
theorem validateMermaid_mixed_shape_defect_witness :
    lineErrors ("x".data ++ "([".data ++ "Label".data ++ "])".data) 2
      = [msgMixedShape 2] ∧
    validateMermaidSyntax
        ("flowchart TD".data ++ '\n' :: ("x".data ++ "([".data ++ "Label".data ++ "])".data))
      = ⟨false, [msgMixedShape 2]⟩ :=
  validateMermaid_mixed_shape_defect "x".data "Label".data 2 (by decide) (by decide)

/-- Claim C9 (amended): a rounded-rectangle node whose display text contains
parentheses is flagged with the parenthesized-node-text defect only when the
node additionally carries the inline-class marker `:::` right after its
closing delimiter (the source regex demands the literal tail sequence of a
quote, a closing parenthesis and `:::`); the same node without `:::` yields no
defect at all. -/
theorem validateMermaid_node_parens_amended :
    validateMermaidSyntax "flowchart TD\nA(\"text (with parens)\"):::style".data
      = ⟨false, [msgNodeParens 2]⟩ ∧
    validateMermaidSyntax "flowchart TD\nA(\"text (with parens)\")".data
      = ⟨true, []⟩ := by decide

/-- Counterexample to C9 as stated: the block `flowchart TD` /
`A("text (with parens)")` contains a rounded-rectangle node whose text itself
contains parentheses, yet validation reports the block defect-free — no
parenthesized-node-text Defect is produced for that line. -/
theorem validateMermaid_node_parens_counterexample :
    validateMermaidSyntax "flowchart TD\nA(\"text (with parens)\")".data
      = ⟨true, []⟩ ∧
    lineErrors "A(\"text (with parens)\")".data 2 = [] := by decide
